import Mathlib

/-!
Verification development for the pydatacq acquisition pipeline.

The definitions below are shallow embeddings of the Python source:
byte streams are `List ℕ` (each element a byte value 0..255), Python
floats are modelled as rationals `ℚ`, and fallible reads return
`Option`.  Each definition names the source function it embeds.
-/

namespace Pydatacq

/-- Embedding of `np.frombuffer(wave, dtype=np.int8)` applied to one byte: interpret a
byte value as a signed 8-bit integer (values 128..255 wrap to -128..-1).
From `sds.py` line 190. -/
def toSigned (b : ℕ) : ℤ :=
  if b < 128 then (b : ℤ) else (b : ℤ) - 256

/-- The post-processing step `np.where(w > 127, w - 256, w)` applied to one
element, from `sds.py` line 191. -/
def wherePost (x : ℤ) : ℤ :=
  if x > 127 then x - 256 else x

/-- Embedding of `SDS._toV` from `sds.py` lines 106-107:
`(x / 128 * vgain * 5 - voffset) * probe_att`.  (This helper is defined in
the source but is not called from the acquisition decode path.) -/
def toV (x vgain voffset probe_att : ℚ) : ℚ :=
  (x / 128 * vgain * 5 - voffset) * probe_att

/-- The voltage axis computed by `SDS.async_getwave` (`sds.py` lines
188-203): `w = np.frombuffer(wave, dtype=np.int8)`, then
`w = np.where(w > 127, w - 256, w)`, then `v = w * vdiv / 25 - offs`,
elementwise over the raw byte block. -/
def async_getwave_v (raw : List ℕ) (vdiv offs : ℚ) : List ℚ :=
  raw.map (fun b => ((wherePost (toSigned b) : ℚ)) * vdiv / 25 - offs)

/-- The voltage the specification's decode formula assigns to one raw byte:
`(toSigned(raw[k]) / 128 * g * 5 - o) * a`.  Modelled from the spec's words
(§4.2 / testable property 1) for comparison with `async_getwave_v`. -/
def specDecodeV (b : ℕ) (g o a : ℚ) : ℚ :=
  toV ((toSigned b : ℚ)) g o a

/-- Embedding of `reader.readexactly(n)` on a byte stream: returns the first `n` bytes
and the remaining stream, or `none` (IncompleteReadError) when fewer than
`n` bytes are available. -/
def readexactly (n : ℕ) (s : List ℕ) : Option (List ℕ × List ℕ) :=
  if n ≤ s.length then some (s.take n, s.drop n) else none

/-- One ASCII decimal digit test (byte values 48..57). -/
def isDigit (b : ℕ) : Bool :=
  48 ≤ b && b ≤ 57

/-- Python `int()` applied to an ASCII byte slice, restricted to non-empty
all-digit slices (the shape the waveform header carries); any other slice
fails. From `sds.py` line 142, `int(header[13:22])`. -/
def parseDigits (l : List ℕ) : Option ℕ :=
  if l ≠ [] && l.all isDigit then
    some (l.foldl (fun acc b => acc * 10 + (b - 48)) 0)
  else
    none

/-- Embedding of `SDS.async_query_rawwave` (`sds.py` lines 115-149) as a function of the
instrument's response byte stream: read a 22-byte header, parse
`header[13:22]` as a decimal integer `size`, read exactly `size` payload
bytes, read and discard exactly 2 trailer bytes, and return the payload
together with the unread rest of the stream. -/
def async_query_rawwave (s : List ℕ) : Option (List ℕ × List ℕ) := do
  let (header, s1) ← readexactly 22 s
  let size ← parseDigits ((header.drop 13).take 9)
  let (wave, s2) ← readexactly size s1
  let (_, s3) ← readexactly 2 s2
  return (wave, s3)

/-- The pacing step inside `SDS.async_getwave` (`sds.py` lines 166-186),
as a pure function of the stored `_wavetime`, the current clock reading
`now`, the queried `timebase` and the instrument's division count:
`T = timebase * divisions; wait = T * 4;` if `_wavetime` is set and
`now - _wavetime < wait` then sleep `wait - (now - _wavetime)` else sleep
nothing; in every case the new `_wavetime` is `now` (the clock reading
taken before any sleep).  Returns `(sleepDuration, newWavetime)`. -/
def pacerStep (wavetime : Option ℚ) (now timebase divisions : ℚ) :
    ℚ × Option ℚ :=
  let T := timebase * divisions
  let wait := T * 4
  let sleep :=
    match wavetime with
    | none => 0
    | some t => if now - t < wait then wait - (now - t) else 0
  (sleep, some now)

/-- The constant `SDS._divisions` (`sds.py` line 102), returned by `SDS.divisions()`. -/
def sds_divisions : ℚ := 14

/-! ### Bounded queue and producer state (`live_data.py`)

`asyncio.Queue(maxsize=cap)` together with the producer of
`LiveData._produce_data`: `queue.put` appends when the queue holds fewer
than `cap` items and otherwise suspends the caller, holding the pending
item until room appears; it never discards the item and never raises. -/

/-- The producer coroutine's scheduling status: running, or suspended
inside `queue.put` holding the pending item. -/
inductive ProdStatus (α : Type) where
  | running : ProdStatus α
  | blockedPut : α → ProdStatus α
  deriving DecidableEq

/-- State of the bounded queue plus the producer task. -/
structure QSys (α : Type) where
  cap : ℕ
  buf : List α
  prod : ProdStatus α
  deriving DecidableEq

/-- The producer executes `await queue.put(x)`: append `x` when the buffer
is below capacity, otherwise suspend holding `x` (no drop, no error). -/
def putAttempt (s : QSys α) (x : α) : QSys α :=
  if s.buf.length < s.cap then
    { s with buf := s.buf ++ [x] }
  else
    { s with prod := ProdStatus.blockedPut x }

/-- A scheduler pass over a producer suspended in `queue.put`: it resumes
(and appends its pending item) exactly when the buffer is below capacity;
otherwise it stays suspended. -/
def tryResume (s : QSys α) : QSys α :=
  match s.prod with
  | ProdStatus.running => s
  | ProdStatus.blockedPut x =>
      if s.buf.length < s.cap then
        { s with buf := s.buf ++ [x], prod := ProdStatus.running }
      else
        s

/-- The consumer executes `await queue.get()`: remove and return the
oldest item, or suspend (`none`) when the queue is empty. -/
def getStep (s : QSys α) : Option (α × QSys α) :=
  match s.buf with
  | [] => none
  | h :: t => some (h, { s with buf := t })

/-! ### Channel scheduler (`live_sds.py`) and stop flag (`live_data.py`)

`LiveSDS._next_channel` is a generator:
`while super()._go_on: for ch in self.channels: yield ch` then
`yield None`.  Python attribute semantics: `LiveData` defines the class
attribute `_go_on = True` (`live_data.py` line 40); `start()` and `stop()`
assign `self._go_on`, which creates/overwrites an *instance* attribute
(`live_data.py` lines 100, 109); `super()._go_on` looks the name up in the
class MRO only and never consults the instance dictionary.  No code in the
repository ever assigns the class attribute, so the value `super()._go_on`
reads is the constant `True`. -/

/-- The class attribute `LiveData._go_on`, assigned `True` at class
creation (`live_data.py` line 40) and never reassigned on the class. -/
def classGoOn : Bool := true

/-- The instance-attribute view of a `LiveData` object relevant to the
stop flag: `instGoOn = none` before any assignment to `self._go_on`,
`some b` after. -/
structure LiveDataObj where
  instGoOn : Option Bool
  deriving DecidableEq

/-- Reading `self._go_on`: the instance attribute when set, else the class
attribute. -/
def selfGoOn (o : LiveDataObj) : Bool :=
  o.instGoOn.getD classGoOn

/-- Reading `super()._go_on` (`live_sds.py` line 78): class-MRO lookup
only, bypassing the instance dictionary. -/
def superGoOn (_ : LiveDataObj) : Bool :=
  classGoOn

/-- Embedding of `LiveData.stop` (`live_data.py` lines 105-109): assigns
`self._go_on = False`, an instance attribute. -/
def LiveData_stop (o : LiveDataObj) : LiveDataObj :=
  { o with instGoOn := some false }

/-- The flag assignment of `LiveData.start` (`live_data.py` line 100):
`self._go_on = True`. -/
def LiveData_start_flag (o : LiveDataObj) : LiveDataObj :=
  { o with instGoOn := some true }

/-- The value produced by the `n`-th `next()` call on the
`LiveSDS._next_channel` generator (`live_sds.py` lines 73-81), for a
channel set modelled as the list `channels` in its fixed iteration order.
While the loop guard `super()._go_on` reads true the generator is forever
inside `while: for ch in channels: yield ch`, so the `n`-th yield is
channel `n % M`; if the guard ever read false the generator would next
yield `None` and stop. -/
def nextChannel (o : LiveDataObj) (channels : List ℕ) (n : ℕ) : Option ℕ :=
  if superGoOn o then channels.get? (n % channels.length) else none

/-- The first `n` values yielded by the scheduler. -/
def schedulerYields (o : LiveDataObj) (channels : List ℕ) (n : ℕ) :
    List (Option ℕ) :=
  (List.range n).map (nextChannel o channels)

/-! ### Producer enqueue call and consumer step (`live_data.py`) -/

/-- A Python-level call to `asyncio.Queue.put` with an explicit positional
argument list.  `put(self, item)` takes exactly one positional argument;
any other arity raises `TypeError` before anything is enqueued. -/
def queuePutCall (buf : List α) (args : List α) : Except String (List α) :=
  match args with
  | [item] => Except.ok (buf ++ [item])
  | _ => Except.error "TypeError"

/-- The positional arguments `LiveData._produce_data` passes to
`queue.put` (`live_data.py` lines 144-148): `queue.put(asctime(), data)`
when the timestamp option is on, `queue.put(data)` otherwise.  `α` is the
type of queue items; `stamp` injects the `asctime()` string. -/
def producePutArgs (timestamp : Bool) (stamp : String → α) (ts : String)
    (data : α) : List α :=
  if timestamp then [stamp ts, data] else [data]

/-- One iteration body of `LiveData._consume_data` after the dequeue
(`live_data.py` lines 157-162): `queue.task_done()`, then
`self.__updates = self.__updates + 1`, then `await self.__consumer_cb(data)`.
Returns the new counter together with the handler's outcome; a handler
exception propagates out of the iteration (nothing catches it). -/
def consumeStep (updates : ℕ) (handler : α → Except ε Unit) (data : α) :
    ℕ × Except ε Unit :=
  let updates := updates + 1
  (updates, handler data)

/-! ### `Siglent.send` (`siglent.py` lines 105-126)

The body (connect, sendall, close, optional sleep) runs under
`try: ... except: traceback.print_exc()` — a bare `except` that catches
every exception and only prints it.  The body is modelled as an arbitrary
`Except` outcome covering every connection, write, or close failure. -/

/-- Embedding of `Siglent.send` as a function of its body's outcome: every exception is
caught and swallowed (printed only), so the call always returns normally.
The returned flag records whether a traceback was printed. -/
def siglent_send (body : Except String Unit) : Except String Bool :=
  match body with
  | Except.ok _ => Except.ok false
  | Except.error _ => Except.ok true

/-! ## Helper lemmas -/

/-- On byte values the `np.where` step is the identity: an int8 value never
exceeds 127. -/
lemma wherePost_toSigned_eq (b : ℕ) (hb : b < 256) :
    wherePost (toSigned b) = toSigned b := by
  simp only [wherePost, toSigned]
  split_ifs <;> omega

/-! ## Claims -/

/-- C10: in the acquisition decode path, the post-processing step
`np.where(w > 127, w - 256, w)` is the identity on the already-signed
int8 array (no element of an int8 array exceeds 127), so the decode result
equals the direct signed-8-bit reinterpretation of the raw bytes without
that step. -/
theorem c10_where_step_identity (raw : List ℕ) (vdiv offs : ℚ)
    (hb : ∀ b ∈ raw, b < 256) :
    async_getwave_v raw vdiv offs
      = raw.map (fun b => ((toSigned b : ℤ) : ℚ) * vdiv / 25 - offs)
    ∧ ∀ b ∈ raw, wherePost (toSigned b) = toSigned b := by
  refine ⟨?_, fun b hbm => wherePost_toSigned_eq b (hb b hbm)⟩
  unfold async_getwave_v
  refine List.map_congr_left (fun b hbm => ?_)
  rw [wherePost_toSigned_eq b (hb b hbm)]

theorem c10_where_step_identity_witness :
    async_getwave_v [0, 127, 128, 255] 1 0
      = [0, 127, 128, 255].map (fun b => ((toSigned b : ℤ) : ℚ) * 1 / 25 - 0)
    ∧ ∀ b ∈ [0, 127, 128, 255], wherePost (toSigned b) = toSigned b :=
  c10_where_step_identity [0, 127, 128, 255] 1 0 (by decide)

/-- C1 counterexample: for the raw block `[128]` with verticalGain 1,
verticalOffset 0, probeAttenuation 1, the voltage the decode path actually
computes (`toSigned(128) * vdiv / 25 - offs = -128/25 = -5.12`) differs
from the claimed `(toSigned(128)/128*g*5-o)*a = -5`. -/
theorem c1_decode_counterexample :
    async_getwave_v [128] 1 0 ≠ [specDecodeV 128 1 0 1] := by
  simp only [async_getwave_v, specDecodeV, toV, toSigned, wherePost,
    List.map_cons, List.map_nil]
  norm_num

/-- C1 amended: the decode produces a voltage axis of the same length as
the raw block whose value at each index `k` equals
`toSigned(raw[k]) * vdiv / 25 - offs` exactly, where `vdiv` is the queried
volts-per-division and `offs` the queried offset; the probe attenuation is
not applied anywhere in this path, and the `_toV` helper's
`/128 * gain * 5` scaling is not the scaling used. -/
theorem c1_decode_amended (raw : List ℕ) (vdiv offs : ℚ)
    (hb : ∀ b ∈ raw, b < 256) :
    (async_getwave_v raw vdiv offs).length = raw.length
    ∧ ∀ k b, raw.get? k = some b →
        (async_getwave_v raw vdiv offs).get? k
          = some (((toSigned b : ℤ) : ℚ) * vdiv / 25 - offs) := by
  constructor
  · simp [async_getwave_v]
  · intro k b hk
    unfold async_getwave_v
    rw [List.get?_map, hk]
    simp only [Option.map_some']
    rw [wherePost_toSigned_eq b (hb b (List.get?_mem hk))]

theorem c1_decode_amended_witness :
    (async_getwave_v [128, 0, 255] 2 1).length = 3
    ∧ ∀ k b, [128, 0, 255].get? k = some b →
        (async_getwave_v [128, 0, 255] 2 1).get? k
          = some (((toSigned b : ℤ) : ℚ) * 2 / 25 - 1) :=
  c1_decode_amended [128, 0, 255] 2 1 (by decide)

/-- C3: the acquisition pacer with settle time `T = timebase * divisions`:
on the first call (`_wavetime` unset) the computed wait is zero; on every
later call, if less than `4*T` has elapsed since `_wavetime` the wait
equals the remaining deficit `4*T - elapsed`, otherwise zero; and in every
case the clock reading `now` taken at the decision (before any sleep)
becomes the new `_wavetime`. -/
theorem c3_pacer_wait (t now timebase divisions : ℚ) :
    pacerStep none now timebase divisions = (0, some now)
    ∧ pacerStep (some t) now timebase divisions
      = (if now - t < 4 * (timebase * divisions)
           then 4 * (timebase * divisions) - (now - t) else 0,
         some now) := by
  constructor
  · rfl
  · simp only [pacerStep]
    rw [show timebase * divisions * 4 = 4 * (timebase * divisions) by ring]

/-- C9: the synchronous fire-and-forget `Siglent.send` never propagates an
exception to its caller: whatever the outcome of the connect/write/close
body, the bare `except:` catches it (printing a traceback) and `send`
returns normally. -/
theorem c9_send_never_raises (body : Except String Unit) :
    ∃ printed : Bool, siglent_send body = Except.ok printed
      ∧ (printed = true ↔ ∃ e, body = Except.error e) := by
  cases body with
  | ok u => exact ⟨false, rfl, by simp⟩
  | error e => exact ⟨true, rfl, by simp⟩

/-- C8 counterexample: with the frame counter at 5 and a handler that
raises, one consumer iteration still leaves the counter at 6 — the
increment happens before the handler is invoked, so the counter is not
unchanged when the handler fails. -/
theorem c8_counter_counterexample :
    consumeStep 5 (fun _ : ℕ => (Except.error "boom" : Except String Unit)) 0
      = (6, Except.error "boom") ∧ (6 : ℕ) ≠ 5 :=
  ⟨rfl, by decide⟩

/-- C8 amended: the frame counter read by the rate monitor is incremented
by the consumer task immediately after the dequeue and *before* the frame
handler is invoked: for every consumed frame the counter becomes
`updates + 1` regardless of whether the handler returns normally or
raises, and a handler exception thus leaves the counter already
incremented for that frame. -/
theorem c8_counter_amended (updates : ℕ) (handler : α → Except ε Unit)
    (data : α) :
    (consumeStep updates handler data).1 = updates + 1
    ∧ (consumeStep updates handler data).2 = handler data
    ∧ ∀ e : ε, consumeStep updates (fun _ => Except.error e) data
        = (updates + 1, Except.error e) :=
  ⟨rfl, rfl, fun _ => rfl⟩

/-- C7: with the timestamp option enabled, `LiveData._produce_data` calls
`queue.put(asctime(), data)` with **two** positional arguments;
`asyncio.Queue.put` takes exactly one, so the call raises `TypeError` and
nothing is enqueued — the pair is never successfully placed on the queue
(with the option off, the single-argument call enqueues `data`). -/
theorem c7_timestamp_put_raises (buf : List (String ⊕ ℕ)) (ts : String)
    (d : ℕ) :
    queuePutCall buf (producePutArgs true Sum.inl ts (Sum.inr d))
      = Except.error "TypeError"
    ∧ queuePutCall buf (producePutArgs false Sum.inl ts (Sum.inr d))
      = Except.ok (buf ++ [Sum.inr d]) :=
  ⟨rfl, rfl⟩

/-- A concrete instrument response stream: 13 header bytes, then the nine
ASCII digits of `"000000064"`, then 64 payload bytes of value 9, then the
2-byte trailer. -/
def sampleStream : List ℕ :=
  List.replicate 13 67 ++ [48, 48, 48, 48, 48, 48, 48, 54, 52]
    ++ List.replicate 64 9 ++ [10, 10]

/-- C2: for every response stream, the binary waveform query reads a fixed
22-byte header, parses its trailing 9 bytes as an ASCII decimal integer
`S`, reads exactly `S` payload bytes, reads and discards exactly 2 trailer
bytes, and returns the `S` payload bytes unmodified regardless of their
content: the result is the slice `[22, 22+S)` of the stream and exactly
`24 + S` bytes have been consumed. -/
theorem c2_rawwave_protocol (s : List ℕ) (S : ℕ)
    (hparse : parseDigits (((s.take 22).drop 13).take 9) = some S)
    (hlen : 24 + S ≤ s.length) :
    async_query_rawwave s = some ((s.drop 22).take S, s.drop (24 + S)) := by
  have h22 : 22 ≤ s.length := by omega
  have h1 : readexactly 22 s = some (s.take 22, s.drop 22) := by
    unfold readexactly; rw [if_pos h22]
  have h2 : readexactly S (s.drop 22)
      = some ((s.drop 22).take S, (s.drop 22).drop S) := by
    unfold readexactly
    rw [if_pos (by rw [List.length_drop]; omega)]
  have hdd : (s.drop 22).drop S = s.drop (22 + S) := List.drop_drop S 22 s
  have h3 : readexactly 2 (s.drop (22 + S))
      = some ((s.drop (22 + S)).take 2, (s.drop (22 + S)).drop 2) := by
    unfold readexactly
    rw [if_pos (by rw [List.length_drop]; omega)]
  have hdd2 : (s.drop (22 + S)).drop 2 = s.drop (24 + S) := by
    rw [List.drop_drop]
    congr 1
    omega
  unfold async_query_rawwave
  rw [h1]
  simp only [Option.bind_eq_bind, Option.some_bind, hparse, h2, hdd, h3,
    hdd2]
  rfl

theorem c2_rawwave_protocol_witness :
    parseDigits (((sampleStream.take 22).drop 13).take 9) = some 64
    ∧ 24 + 64 ≤ sampleStream.length
    ∧ async_query_rawwave sampleStream
        = some ((sampleStream.drop 22).take 64, sampleStream.drop 88) :=
  ⟨by decide, by decide,
    c2_rawwave_protocol sampleStream 64 (by decide) (by decide)⟩

/-- C4: with capacity 1 and a consumer that never dequeues, the producer's
second enqueue attempt suspends — the pending frame is neither dropped nor
an error raised — and it remains suspended under any number of scheduler
passes until the first item is dequeued, after which it completes; in
general a put against a full queue leaves the buffer unchanged and parks
the frame with the suspended producer. -/
theorem c4_backpressure_suspends (α : Type) (a b : α) (n : ℕ) :
    putAttempt (⟨1, [], ProdStatus.running⟩ : QSys α) a
      = ⟨1, [a], ProdStatus.running⟩
    ∧ putAttempt (⟨1, [a], ProdStatus.running⟩ : QSys α) b
      = ⟨1, [a], ProdStatus.blockedPut b⟩
    ∧ tryResume^[n] (⟨1, [a], ProdStatus.blockedPut b⟩ : QSys α)
      = ⟨1, [a], ProdStatus.blockedPut b⟩
    ∧ getStep (⟨1, [a], ProdStatus.blockedPut b⟩ : QSys α)
      = some (a, ⟨1, [], ProdStatus.blockedPut b⟩)
    ∧ tryResume (⟨1, [], ProdStatus.blockedPut b⟩ : QSys α)
      = ⟨1, [b], ProdStatus.running⟩
    ∧ ∀ (s : QSys α) (x : α), s.cap ≤ s.buf.length →
        (putAttempt s x).buf = s.buf
        ∧ (putAttempt s x).prod = ProdStatus.blockedPut x := by
  refine ⟨?_, ?_, ?_, rfl, ?_, ?_⟩
  · simp [putAttempt]
  · simp [putAttempt]
  · exact Function.iterate_fixed (by simp [tryResume]) n
  · simp [tryResume]
  · intro s x hfull
    unfold putAttempt
    rw [if_neg (by omega)]
    exact ⟨rfl, rfl⟩

theorem c4_backpressure_suspends_witness :
    putAttempt (⟨1, [], ProdStatus.running⟩ : QSys ℕ) 7
      = ⟨1, [7], ProdStatus.running⟩
    ∧ putAttempt (⟨1, [7], ProdStatus.running⟩ : QSys ℕ) 8
      = ⟨1, [7], ProdStatus.blockedPut 8⟩
    ∧ tryResume^[3] (⟨1, [7], ProdStatus.blockedPut 8⟩ : QSys ℕ)
      = ⟨1, [7], ProdStatus.blockedPut 8⟩
    ∧ getStep (⟨1, [7], ProdStatus.blockedPut 8⟩ : QSys ℕ)
      = some (7, ⟨1, [], ProdStatus.blockedPut 8⟩)
    ∧ tryResume (⟨1, [], ProdStatus.blockedPut 8⟩ : QSys ℕ)
      = ⟨1, [8], ProdStatus.running⟩
    ∧ ∀ (s : QSys ℕ) (x : ℕ), s.cap ≤ s.buf.length →
        (putAttempt s x).buf = s.buf
        ∧ (putAttempt s x).prod = ProdStatus.blockedPut x :=
  c4_backpressure_suspends ℕ 7 8 3

/-- Reading every position of a list in order yields the list itself
(under `some`). -/
lemma map_get?_range (l : List ℕ) :
    (List.range l.length).map l.get? = l.map some := by
  induction l with
  | nil => rfl
  | cons x xs ih =>
      rw [List.length_cons, List.range_succ_eq_map, List.map_cons,
        List.map_map]
      have hcomp : ((x :: xs).get? ∘ Nat.succ) = xs.get? :=
        funext fun i => rfl
      rw [hcomp, ih]
      rfl

/-- Counting under the `some` injection leaves multiplicities unchanged. -/
lemma count_some_map (c : ℕ) (l : List ℕ) :
    (l.map some).count (some c) = l.count c := by
  induction l with
  | nil => rfl
  | cons x xs ih =>
      simp only [List.map_cons, List.count_cons, ih]
      rfl

/-- One full pass of the round-robin over `M = channels.length` calls is
exactly the channel list; `M * K` calls are `K` concatenated passes. -/
lemma schedulerYields_mul (o : LiveDataObj) (channels : List ℕ) (K : ℕ) :
    schedulerYields o channels (channels.length * K)
      = (List.replicate K (channels.map some)).flatten := by
  induction K with
  | zero => simp [schedulerYields]
  | succ K ih =>
      have hsplit : channels.length * (K + 1)
          = channels.length * K + channels.length := by ring
      rw [hsplit]
      unfold schedulerYields at ih ⊢
      rw [List.range_add, List.map_append, ih, List.replicate_succ',
        List.flatten_append]
      congr 1
      rw [List.map_map]
      have hstep : ∀ i ∈ List.range channels.length,
          (nextChannel o channels ∘ fun x => channels.length * K + x) i
            = channels.get? i := by
        intro i hi
        have hi' : i < channels.length := List.mem_range.mp hi
        simp only [Function.comp, nextChannel, superGoOn, classGoOn,
          if_true]
        rw [Nat.mul_add_mod, Nat.mod_eq_of_lt hi']
      rw [List.map_congr_left hstep, map_get?_range]
      simp

/-- C5: for every configured channel set of size `M` (a nodup list in its
fixed iteration order) and every `K ≥ 0`, the first `M * K` values the
scheduler yields (no stop signal having been observed by the generator)
are exactly `K` successive full passes over the channel list — so every
channel appears exactly once per cycle of `M` calls, in a fixed
deterministic order — and in particular each channel is yielded exactly
`K` times. -/
theorem c5_scheduler_fairness (o : LiveDataObj) (channels : List ℕ)
    (K : ℕ) (hnd : channels.Nodup) :
    schedulerYields o channels (channels.length * K)
      = (List.replicate K (channels.map some)).flatten
    ∧ ∀ c ∈ channels,
        (schedulerYields o channels (channels.length * K)).count (some c)
          = K := by
  refine ⟨schedulerYields_mul o channels K, fun c hc => ?_⟩
  rw [schedulerYields_mul o channels K]
  induction K with
  | zero => rfl
  | succ K ih =>
      rw [List.replicate_succ', List.flatten_append, List.count_append, ih]
      simp only [List.flatten_cons, List.flatten_nil, List.append_nil]
      rw [count_some_map, List.count_eq_one_of_mem hnd hc]

theorem c5_scheduler_fairness_witness :
    schedulerYields ⟨some true⟩ [0, 1] ([0, 1].length * 3)
      = (List.replicate 3 ([0, 1].map some)).flatten
    ∧ ∀ c ∈ [0, 1],
        (schedulerYields ⟨some true⟩ [0, 1] ([0, 1].length * 3)).count
          (some c) = 3 :=
  c5_scheduler_fairness ⟨some true⟩ [0, 1] 3 (by decide)

/-- C6: the stop signal is never observed by the channel scheduler.
`LiveData.stop` sets the *instance* attribute `self._go_on` to `False`,
but the generator's loop guard reads `super()._go_on`, a class-MRO lookup
that always returns the class attribute `True`; hence after `stop()` the
`n`-th `next()` call still returns channel `n % M` and the scheduler never
yields `None` (contradicting the claim that it eventually does; it yields
`None` only in the unreachable post-loop state). -/
theorem c6_stop_never_observed (o : LiveDataObj) (channels : List ℕ)
    (hc : channels ≠ []) (n : ℕ) :
    selfGoOn (LiveData_stop o) = false
    ∧ superGoOn (LiveData_stop o) = true
    ∧ nextChannel (LiveData_stop o) channels n
        = channels.get? (n % channels.length)
    ∧ nextChannel (LiveData_stop o) channels n ≠ none := by
  refine ⟨rfl, rfl, rfl, ?_⟩
  intro hnone
  simp only [nextChannel, superGoOn, classGoOn, if_true] at hnone
  rw [List.get?_eq_none] at hnone
  have hpos : 0 < channels.length := List.length_pos.mpr hc
  have := Nat.mod_lt n hpos
  omega

theorem c6_stop_never_observed_witness :
    selfGoOn (LiveData_stop ⟨some true⟩) = false
    ∧ superGoOn (LiveData_stop ⟨some true⟩) = true
    ∧ nextChannel (LiveData_stop ⟨some true⟩) [0, 1] 5
        = [0, 1].get? (5 % [0, 1].length)
    ∧ nextChannel (LiveData_stop ⟨some true⟩) [0, 1] 5 ≠ none :=
  c6_stop_never_observed ⟨some true⟩ [0, 1] (by decide) 5

end Pydatacq
